import Mathlib

/-!
Shallow embedding of `src/app.py` (NeuralDigest lambda).

External collaborators (Weaviate query client, the LLM summarizer, S3) are
abstracted as parameters: the Weaviate backend is a function from query
offset to the page of article records it returns, the summarizer is an
arbitrary `String → String`, and S3 is an explicit store with injectable
per-key failures.  The Python `while True` pagination loop is embedded with
explicit fuel, returning `none` on fuel exhaustion.
-/

/-- A raw article record fetched from Weaviate: the `title`, `text` and `url`
fields requested by `news_by_topic`.  The `text` field may be missing from the
record (`none`) or present; `get_summarized_articles` skips records whose text
is missing or empty. -/
structure Article where
  title : String
  text : Option String
  url : String
deriving DecidableEq, Repr

/-- An article as stored in the digest: its `text` has been overwritten with
the summarizer's output, so it is always present. -/
structure SummArticle where
  title : String
  text : String
  url : String
deriving DecidableEq, Repr

/-- The constant `ARTICLE_LIMIT = 3` (src/app.py line 18). -/
def ARTICLE_LIMIT : Nat := 3

/-- The fixed topic enumeration (src/app.py line 20). -/
def topics : List String :=
  ["business", "entertainment", "nation", "science", "technology", "world"]

/-- The effective page size of `news_by_topic`: starts at 100 and is lowered
to `ARTICLE_LIMIT` when the latter is smaller (src/app.py lines 36-39). -/
def REQ_LIMIT : Nat := if ARTICLE_LIMIT < 100 then ARTICLE_LIMIT else 100

/-- The `while True` pagination loop of `news_by_topic` (src/app.py lines
54-72), instrumented to also record the list of offsets at which query
requests were issued.  `backend off` is the page the Weaviate backend returns
for a query `.with_limit REQ_LIMIT` `.with_offset off`.  Fuel exhaustion gives
`none`; each iteration extends `results` with the page, records the request,
and breaks when the page has fewer rows than requested or the accumulated
count has reached `ARTICLE_LIMIT`, otherwise advances the offset by
`REQ_LIMIT`. -/
def newsLoop (backend : Nat → List Article) :
    Nat → Nat → List Article → List Nat → Option (List Article × List Nat)
  | 0, _, _, _ => none
  | fuel + 1, offset, results, reqs =>
    let page := backend offset
    let results' := results ++ page
    let reqs' := reqs ++ [offset]
    if page.length < REQ_LIMIT ∨ ARTICLE_LIMIT ≤ results'.length then
      some (results', reqs')
    else
      newsLoop backend fuel (offset + REQ_LIMIT) results' reqs'

/-- Function `news_by_topic` (src/app.py lines 24-73) with its dependence on the
Weaviate backend made explicit: runs the pagination loop from offset 0 with
empty accumulators and returns the accumulated results. -/
def news_by_topic (backend : Nat → List Article) (fuel : Nat) :
    Option (List Article) :=
  (newsLoop backend fuel 0 [] []).map Prod.fst

/-- The offsets of the query requests `news_by_topic` issues. -/
def newsRequests (backend : Nat → List Article) (fuel : Nat) :
    Option (List Nat) :=
  (newsLoop backend fuel 0 [] []).map Prod.snd

/-- The skip test of src/app.py line 107:
`"text" not in article or not article["text"]`. -/
def skipNoText (a : Article) : Bool :=
  match a.text with
  | none => true
  | some s => s = ""

/-- The body of the inner loop of `get_summarized_articles` (src/app.py lines
105-116) acting on one fetched article: the state is the topic's partial
title→article mapping (an insertion-ordered association list, mirroring a
Python dict) together with the list of texts passed to `summarize_article` so
far.  Skips the article when its text is missing or empty, skips it when its
title is already a key, and otherwise records the summarizer call and inserts
the article with its text replaced by the summary. -/
def buildStep (summarize : String → String)
    (st : List (String × SummArticle) × List String) (a : Article) :
    List (String × SummArticle) × List String :=
  if skipNoText a then st
  else if st.1.any (fun p => p.1 = a.title) then st
  else
    let t := a.text.getD ""
    (st.1 ++ [(a.title, ⟨a.title, summarize t, a.url⟩)], st.2 ++ [t])

/-- One topic's pass of `get_summarized_articles`: fold `buildStep` over the
fetched articles, also returning the summarizer-call log. -/
def buildTopicFull (summarize : String → String) (articles : List Article) :
    List (String × SummArticle) × List String :=
  articles.foldl (buildStep summarize) ([], [])

/-- One topic's title→article mapping in the digest. -/
def buildTopic (summarize : String → String) (articles : List Article) :
    List (String × SummArticle) :=
  (buildTopicFull summarize articles).1

/-- Function `get_summarized_articles` (src/app.py lines 95-119): for each topic fetch
the articles via `news_by_topic` and build the topic's mapping.  The digest is
the topic→(title→article) mapping; as a `defaultdict(dict)` it answers every
topic lookup, so it is embedded as an association list with one entry per
topic, empty for topics with no kept article. -/
def get_summarized_articles (summarize : String → String)
    (backend : String → Nat → List Article) (fuel : Nat) :
    Option (List (String × List (String × SummArticle))) :=
  topics.mapM (fun t =>
    (news_by_topic (backend t) fuel).map (fun arts =>
      (t, buildTopic summarize arts)))

/-- A one-article page, used as a concrete backend response in witnesses. -/
def onePage : List Article := [⟨"a", some "x", "u"⟩]

/-- Does the first char list start with the second? -/
def charsStartWith : List Char → List Char → Bool
  | _, [] => true
  | [], _ :: _ => false
  | a :: as, b :: bs => a = b && charsStartWith as bs

/-- Fuel-based core of Python `str.replace`: scan left to right, replacing
non-overlapping occurrences of `pat` by `repl`.  On a match the head char plus
the remaining `pat.length - 1` chars are consumed.  `fuel` at least the length
of the scanned list makes the fuel-exhaustion branch unreachable. -/
def pyReplaceAux (pat repl : List Char) : Nat → List Char → List Char
  | _, [] => []
  | 0, l => l
  | fuel + 1, c :: cs =>
    if charsStartWith (c :: cs) pat then
      repl ++ pyReplaceAux pat repl fuel (List.drop (pat.length - 1) cs)
    else
      c :: pyReplaceAux pat repl fuel cs

/-- Python `s.replace(pat, repl)` for a non-empty `pat` (the source only uses
`replace('.json', '')`).  An empty `pat` is returned unchanged here; Python
would interleave `repl`, a case the program never exercises. -/
def pyReplace (s pat repl : String) : String :=
  if pat.data.isEmpty then s
  else ⟨pyReplaceAux pat.data repl.data s.data.length s.data⟩

/-- Python `str.capitalize`: first character uppercased, the rest
lowercased. -/
def pyCapitalize (s : String) : String :=
  match s.data with
  | [] => ""
  | c :: cs => ⟨c.toUpper :: cs.map Char.toLower⟩

/-- Function `write_summ_article` (src/app.py lines 121-131): append to `html` the
subsection `<h3>` title with literal `.json` removed `</h3>`, a `<p>` with the
summary text, and an anchor to the url labeled source, all embedded
verbatim. -/
def write_summ_article (article : SummArticle) (html : String) : String :=
  html ++ ("<h3>" ++ pyReplace article.title ".json" "" ++ "</h3>\n<p>" ++
    article.text ++ "</p>\n<a href=\"" ++ article.url ++ "\"> source </a>\n")

/-- Function `write_section` (src/app.py lines 133-145): the topic heading and an
`<hr>`, then each article of the topic's mapping in insertion order, then a
blank line. -/
def write_section (articles : List (String × SummArticle)) (topic : String) :
    String :=
  (articles.foldl (fun h p => write_summ_article p.2 h)
    ("<h1>" ++ pyCapitalize topic ++ "</h1>\n<hr>\n")) ++ "\n"

/-- The fixed head block of `write_html` (src/app.py lines 153-166), with the
run date spliced in; whitespace reproduces the Python triple-quoted
literal. -/
def htmlHead (date : String) : String :=
  "<!DOCTYPE html>\n    <html lang=\"en-US\">\n    <head>\n" ++
  "        <meta charset=\"UTF-8\">\n" ++
  "        <meta http-equiv=\"Content-Type\" content=\"text/html; charset=UTF-8\">\n" ++
  "        <meta name=\"viewport\" content=\"width=device-width, initial-scale=1\">\n" ++
  "        <title>NeuralDigest Summary: " ++ date ++ "</title>\n" ++
  "        <link href=\"https://fonts.googleapis.com/css2?family=Roboto:wght@400;700&display=swap\" rel=\"stylesheet\">\n" ++
  "        <link href=\"../style.css\" rel=\"stylesheet\">\n" ++
  "    </head>\n    <h1> Summary for News Articles: " ++ date ++ " </h1>\n" ++
  "    <hr>\n    <body>\n    "

/-- Function `write_html` (src/app.py lines 147-174): build the digest, then the head
block, one section per topic in enumeration order (a `defaultdict` lookup
yields the empty mapping for absent topics), and a closing tag. -/
def write_html (summarize : String → String)
    (backend : String → Nat → List Article) (fuel : Nat) (date : String) :
    Option String :=
  (get_summarized_articles summarize backend fuel).map (fun digest =>
    (topics.foldl (fun h t => h ++ write_section ((digest.lookup t).getD []) t)
      (htmlHead date)) ++ "</html>")

/-- Failures that can surface in `lambda_handler`: a Python `KeyError` on the
event dict, an S3 client error on a key, or a `json.loads` failure. -/
inductive Err where
  | keyError (k : String)
  | s3Error (k : String)
  | jsonError
deriving DecidableEq, Repr

/-- An object stored in the bucket: the HTML page, the parsed `articles.json`
array, or content `json.loads` rejects. -/
inductive Obj where
  | page (s : String)
  | jsonArr (dates : List String)
  | malformed
deriving DecidableEq, Repr

/-- The S3 collaborator: a key→object store plus the keys whose `put_object`
or `get_object` calls fail on this run (fault injection for the exception
paths of `lambda_handler`). -/
structure S3Model where
  store : List (String × Obj)
  putFailKeys : List String
  getFailKeys : List String
deriving DecidableEq, Repr

/-- Store `v` under `k`, overwriting an existing binding. -/
def storePut (store : List (String × Obj)) (k : String) (v : Obj) :
    List (String × Obj) :=
  (k, v) :: store.filter (fun p => p.1 ≠ k)

/-- The call `s3.put_object`: fails exactly on the injected fault keys, otherwise
updates the store. -/
def s3put (s3 : S3Model) (k : String) (v : Obj) : Except Err S3Model :=
  if k ∈ s3.putFailKeys then .error (.s3Error k)
  else .ok { s3 with store := storePut s3.store k v }

/-- The call `s3.get_object` plus body read: fails on the injected fault keys and on
missing keys, otherwise returns the object. -/
def s3get (s3 : S3Model) (k : String) : Except Err Obj :=
  if k ∈ s3.getFailKeys then .error (.s3Error k)
  else
    match s3.store.lookup k with
    | some v => .ok v
    | none => .error (.s3Error k)

/-- The indexing `event[k]`: a lookup that raises `KeyError` when the key is absent. -/
def getEvent (event : List (String × String)) (k : String) :
    Except Err String :=
  match event.lookup k with
  | some v => .ok v
  | none => .error (.keyError k)

/-- The required-key list `configVars` (src/app.py lines 196-200). -/
def configVars : List String :=
  ["WEAVIATE_URL", "WEAVIATE_API_KEY", "OPENAI_API_KEY"]

/-- The warning `lambda_handler` logs for a missing event key. -/
def missingWarning (k : String) : String :=
  "Missing event variable: " ++ k

/-- One iteration of the `for conf in configVars` loop (src/app.py lines
201-205): the key is copied into the config when present; a `KeyError` is
caught and turned into a warning, leaving the entry absent. -/
def configStep (event : List (String × String))
    (st : List (String × String) × List String) (k : String) :
    List (String × String) × List String :=
  match getEvent event k with
  | .ok v => (st.1 ++ [(k, v)], st.2)
  | .error _ => (st.1, st.2 ++ [missingWarning k])

/-- The whole `for conf in configVars` loop: returns the config and the
warning log. -/
def configStage (event : List (String × String)) :
    List (String × String) × List String :=
  configVars.foldl (configStep event) ([], [])

/-- Lines 219-220 of src/app.py: insert `date` at position 0 of the index
array only when it is not already an element. -/
def updateIndex (date : String) (articles : List String) : List String :=
  if date ∈ articles then articles else date :: articles

/-- The guarded HTML-upload step (src/app.py lines 206-211): building the HTML
(whose failures, abstracted as `htmlRes`, are raised inside the `put` call)
and the `put_object` both sit inside `try`; any failure is caught, logged as a
warning, and the run continues with the store unchanged. -/
def publishPhase (s3 : S3Model) (htmlRes : Except Err String) (date : String) :
    S3Model :=
  match htmlRes.bind (fun html =>
      s3put s3 ("articles/" ++ date ++ ".html") (.page html)) with
  | .ok s3' => s3'
  | .error _ => s3

/-- The unguarded index-update step (src/app.py lines 213-224): read
`articles.json`, parse it, insert the date if absent, and write the array back
unconditionally.  Any failure propagates. -/
def indexPhase (s3 : S3Model) (date : String) : Except Err S3Model := do
  let content ← s3get s3 "articles.json"
  let articles ← match content with
    | .jsonArr l => Except.ok l
    | _ => Except.error Err.jsonError
  s3put s3 "articles.json" (.jsonArr (updateIndex date articles))

/-- Function `lambda_handler` (src/app.py lines 177-224) below the logging setup: read
the bucket name (an uncaught `KeyError` when absent), run the config loop,
run the guarded publish step, then the index-update step.  Returns the final
S3 state together with the propagated error, if any; the state reflects
whatever was already committed when an error escaped. -/
def lambda_handler (event : List (String × String)) (s3 : S3Model)
    (htmlRes : Except Err String) (date : String) : S3Model × Option Err :=
  match getEvent event "S3_BUCKET_NAME" with
  | .error e => (s3, some e)
  | .ok _bucket =>
    let _cfg := configStage event
    let s3a := publishPhase s3 htmlRes date
    match indexPhase s3a date with
    | .ok s3b => (s3b, none)
    | .error e => (s3a, some e)

theorem newsLoop_one (backend : Nat → List Article) (n : Nat) :
    newsLoop backend (n + 1) 0 [] [] = some (backend 0, [0]) := by
  have h3 : REQ_LIMIT = 3 := rfl
  have hA : ARTICLE_LIMIT = 3 := rfl
  simp only [newsLoop, List.nil_append, h3, hA]
  split
  · rfl
  · omega

theorem news_by_topic_eval (backend : Nat → List Article) (n : Nat) :
    news_by_topic backend (n + 1) = some (backend 0) := by
  simp [news_by_topic, newsLoop_one]

theorem newsRequests_eval (backend : Nat → List Article) (n : Nat) :
    newsRequests backend (n + 1) = some [0] := by
  simp [newsRequests, newsLoop_one]

theorem mapM_loop_of_some {α β : Type} (g : α → β) :
    ∀ (ts : List α) (acc : List β),
      List.mapM.loop (fun t => some (g t)) ts acc =
        some (acc.reverse ++ ts.map g) := by
  intro ts
  induction ts with
  | nil => intro acc; simp [List.mapM.loop]
  | cons h t ih => intro acc; simp [List.mapM.loop, ih]

theorem mapM_option_of_some {α β : Type} (g : α → β) (ts : List α) :
    ts.mapM (fun t => some (g t)) = some (ts.map g) := by
  show List.mapM.loop (fun t => some (g t)) ts [] = _
  rw [mapM_loop_of_some]
  rfl

theorem get_summarized_articles_eval (summarize : String → String)
    (backend : String → Nat → List Article) (n : Nat) :
    get_summarized_articles summarize backend (n + 1) =
      some (topics.map fun t => (t, buildTopic summarize (backend t 0))) := by
  have hfun : (fun t => (news_by_topic (backend t) (n + 1)).map (fun arts =>
        (t, buildTopic summarize arts))) =
      (fun t => some (t, buildTopic summarize (backend t 0))) := by
    funext t
    rw [news_by_topic_eval]
    rfl
  show topics.mapM (fun t => (news_by_topic (backend t) (n + 1)).map
      (fun arts => (t, buildTopic summarize arts))) = _
  rw [hfun, mapM_option_of_some]

theorem buildFold_fst_length (f : String → String) :
    ∀ (l : List Article) (st : List (String × SummArticle) × List String),
      ((l.foldl (buildStep f) st).1.length ≤ st.1.length + l.length) := by
  intro l
  induction l with
  | nil => simp
  | cons a l ih =>
    intro st
    refine le_trans (ih (buildStep f st a)) ?_
    have hstep : (buildStep f st a).1.length ≤ st.1.length + 1 := by
      unfold buildStep
      split
      · omega
      · split
        · omega
        · simp
    simp only [List.length_cons]
    omega

theorem buildTopic_length_le (f : String → String) (l : List Article) :
    (buildTopic f l).length ≤ l.length := by
  have := buildFold_fst_length f l ([], [])
  simpa [buildTopic, buildTopicFull] using this

/-- Claim C10: with the shipped constants the effective request limit equals
`ARTICLE_LIMIT`, and the pagination loop of `news_by_topic` terminates after
exactly one query request for every backend response: the loop's request log
is `[0]` (one request, offset never past 0) and the result is the first
page. -/
theorem claim_C10_single_request (backend : Nat → List Article) (fuel : Nat)
    (hf : 1 ≤ fuel) :
    REQ_LIMIT = ARTICLE_LIMIT ∧
    news_by_topic backend fuel = some (backend 0) ∧
    newsRequests backend fuel = some [0] := by
  obtain ⟨n, rfl⟩ : ∃ n, fuel = n + 1 := ⟨fuel - 1, by omega⟩
  exact ⟨rfl, news_by_topic_eval backend n, newsRequests_eval backend n⟩

theorem claim_C10_witness :
    REQ_LIMIT = ARTICLE_LIMIT ∧
    news_by_topic (fun _ => []) 7 = some ((fun _ => ([] : List Article)) 0) ∧
    newsRequests (fun _ => []) 7 = some [0] :=
  claim_C10_single_request (fun _ => []) 7 (by decide)

/-- Claim C2: `news_by_topic` paginates with fixed page size
`min(configured_page_size 100, ARTICLE_LIMIT)`, and for every backend whose
pages respect the requested limit the total number of results returned is
bounded by `ARTICLE_LIMIT` (the limit bounds total results, not just page
size). -/
theorem claim_C2_pagination_bounded (backend : Nat → List Article) (fuel : Nat)
    (hf : 1 ≤ fuel) (hb : ∀ off, (backend off).length ≤ REQ_LIMIT) :
    REQ_LIMIT = min 100 ARTICLE_LIMIT ∧
    ∃ res, news_by_topic backend fuel = some res ∧
      res.length ≤ ARTICLE_LIMIT := by
  obtain ⟨n, rfl⟩ : ∃ n, fuel = n + 1 := ⟨fuel - 1, by omega⟩
  exact ⟨rfl, backend 0, news_by_topic_eval backend n, hb 0⟩

theorem claim_C2_witness :
    REQ_LIMIT = min 100 ARTICLE_LIMIT ∧
    ∃ res, news_by_topic (fun _ => onePage) 1 = some res ∧
      res.length ≤ ARTICLE_LIMIT :=
  claim_C2_pagination_bounded (fun _ => onePage) 1 (by decide)
    (fun _ => by show onePage.length ≤ REQ_LIMIT; decide)

/-- Claim C1: for every topic, the number of articles stored in the digest
returned by `get_summarized_articles` never exceeds `ARTICLE_LIMIT` (for any
backend whose pages respect the requested limit), the cap being enforced by
the fetch limit of `news_by_topic`, with skipping and deduplication only able
to reduce the count further. -/
theorem claim_C1_digest_capped (summarize : String → String)
    (backend : String → Nat → List Article) (fuel : Nat) (hf : 1 ≤ fuel)
    (hb : ∀ t off, (backend t off).length ≤ REQ_LIMIT) :
    ∃ digest, get_summarized_articles summarize backend fuel = some digest ∧
      ∀ p ∈ digest, p.2.length ≤ ARTICLE_LIMIT := by
  obtain ⟨n, rfl⟩ : ∃ n, fuel = n + 1 := ⟨fuel - 1, by omega⟩
  refine ⟨_, get_summarized_articles_eval summarize backend n, ?_⟩
  intro p hp
  simp only [List.mem_map] at hp
  obtain ⟨t, _ht, rfl⟩ := hp
  exact le_trans (buildTopic_length_le summarize (backend t 0))
    (le_trans (hb t 0) (by decide))

theorem claim_C1_witness :
    ∃ digest,
      get_summarized_articles (fun s => s) (fun _ _ => onePage) 1 =
        some digest ∧
      ∀ p ∈ digest, p.2.length ≤ ARTICLE_LIMIT :=
  claim_C1_digest_capped (fun s => s) (fun _ _ => onePage) 1
    (by decide) (fun _ _ => by show onePage.length ≤ REQ_LIMIT; decide)

theorem buildStep_fst_nodup (f : String → String)
    (st : List (String × SummArticle) × List String) (a : Article)
    (h : (st.1.map Prod.fst).Nodup) :
    ((buildStep f st a).1.map Prod.fst).Nodup := by
  unfold buildStep
  split
  · exact h
  · split
    · exact h
    · next hany =>
      simp only [List.map_append, List.map_cons, List.map_nil]
      rw [List.nodup_append]
      refine ⟨h, List.nodup_singleton _, ?_⟩
      intro x hx hx'
      simp only [List.mem_singleton] at hx'
      subst hx'
      obtain ⟨p, hp, hpx⟩ := List.mem_map.mp hx
      exact hany (List.any_eq_true.mpr ⟨p, hp, by simp [hpx]⟩)

theorem buildFold_fst_nodup (f : String → String) :
    ∀ (l : List Article) (st : List (String × SummArticle) × List String),
      (st.1.map Prod.fst).Nodup →
      (((l.foldl (buildStep f) st).1).map Prod.fst).Nodup := by
  intro l
  induction l with
  | nil => intro st h; exact h
  | cons a l ih =>
    intro st h
    exact ih (buildStep f st a) (buildStep_fst_nodup f st a h)

/-- Claim C3: within each topic of the digest, article titles are unique --
the title list of the topic mapping has no duplicates for every fetched
article list (hence after every insertion) -- and appending a fetched article
whose title is already a key leaves the mapping unchanged: the second
occurrence is skipped, not merged. -/
theorem claim_C3_titles_unique (summarize : String → String)
    (articles : List Article) :
    ((buildTopic summarize articles).map Prod.fst).Nodup ∧
    ∀ b : Article, b.title ∈ (buildTopic summarize articles).map Prod.fst →
      buildTopic summarize (articles ++ [b]) = buildTopic summarize articles := by
  constructor
  · exact buildFold_fst_nodup summarize articles ([], []) (by simp)
  · intro b hb
    unfold buildTopic buildTopicFull
    rw [List.foldl_append]
    show (buildStep summarize (buildTopicFull summarize articles) b).1 = _
    unfold buildStep
    split
    · rfl
    · split
      · rfl
      · next hany =>
        exfalso
        obtain ⟨p, hp, hpt⟩ := List.mem_map.mp hb
        exact hany (List.any_eq_true.mpr ⟨p, hp, by simp [hpt]⟩)

theorem claim_C3_witness :
    buildTopic (fun s => s) (onePage ++ [⟨"a", some "y", "v"⟩]) =
      buildTopic (fun s => s) onePage :=
  (claim_C3_titles_unique (fun s => s) onePage).2 ⟨"a", some "y", "v"⟩
    (by decide)

theorem skipNoText_false (a : Article) (h : skipNoText a = false) :
    ∃ s, a.text = some s ∧ s ≠ "" ∧ a.text.getD "" = s := by
  unfold skipNoText at h
  match ha : a.text with
  | none => rw [ha] at h; exact absurd h (by simp)
  | some s =>
    rw [ha] at h
    simp only [decide_eq_false_iff_not] at h
    exact ⟨s, rfl, h, rfl⟩

theorem buildFold_sound (f : String → String) :
    ∀ (l : List Article) (st : List (String × SummArticle) × List String),
      (∀ c ∈ (l.foldl (buildStep f) st).2,
        c ∈ st.2 ∨ ∃ a ∈ l, a.text = some c ∧ c ≠ "") ∧
      (∀ p ∈ (l.foldl (buildStep f) st).1,
        p ∈ st.1 ∨ ∃ a ∈ l, ∃ s, a.text = some s ∧ s ≠ "" ∧
          p = (a.title, ⟨a.title, f s, a.url⟩)) := by
  intro l
  induction l with
  | nil => intro st; exact ⟨fun c hc => Or.inl hc, fun p hp => Or.inl hp⟩
  | cons a l ih =>
    intro st
    have hstep : (∀ c ∈ (buildStep f st a).2,
          c ∈ st.2 ∨ (a.text = some c ∧ c ≠ "")) ∧
        (∀ p ∈ (buildStep f st a).1,
          p ∈ st.1 ∨ ∃ s, a.text = some s ∧ s ≠ "" ∧
            p = (a.title, ⟨a.title, f s, a.url⟩)) := by
      unfold buildStep
      split
      · exact ⟨fun c hc => Or.inl hc, fun p hp => Or.inl hp⟩
      · next hskip =>
        split
        · exact ⟨fun c hc => Or.inl hc, fun p hp => Or.inl hp⟩
        · obtain ⟨s, hs, hsne, hget⟩ :=
            skipNoText_false a (Bool.not_eq_true _ ▸ eq_false_of_ne_true hskip)
          constructor
          · intro c hc
            rcases List.mem_append.mp hc with hc | hc
            · exact Or.inl hc
            · simp only [List.mem_singleton] at hc
              subst hc
              exact Or.inr ⟨hget ▸ hs, hget ▸ hsne⟩
          · intro p hp
            rcases List.mem_append.mp hp with hp | hp
            · exact Or.inl hp
            · simp only [List.mem_singleton] at hp
              exact Or.inr ⟨s, hs, hsne, by rw [hp, hget]⟩
    constructor
    · intro c hc
      rcases ((ih (buildStep f st a)).1 c hc) with hin | ⟨b, hb, hbs⟩
      · rcases hstep.1 c hin with hin' | ⟨ha1, ha2⟩
        · exact Or.inl hin'
        · exact Or.inr ⟨a, List.mem_cons_self a l, ha1, ha2⟩
      · exact Or.inr ⟨b, List.mem_cons_of_mem a hb, hbs⟩
    · intro p hp
      rcases ((ih (buildStep f st a)).2 p hp) with hin | ⟨b, hb, hbs⟩
      · rcases hstep.2 p hin with hin' | ⟨s, hs⟩
        · exact Or.inl hin'
        · exact Or.inr ⟨a, List.mem_cons_self a l, s, hs⟩
      · exact Or.inr ⟨b, List.mem_cons_of_mem a hb, hbs⟩

/-- Claim C4: articles whose text field is missing or empty are excluded --
every entry of a topic's digest mapping comes from a fetched article with a
present, non-empty text (its text replaced by the summary), and the
summarizer is only ever invoked on the non-empty texts of fetched
articles. -/
theorem claim_C4_empty_text_excluded (summarize : String → String)
    (articles : List Article) :
    (∀ c ∈ (buildTopicFull summarize articles).2,
      c ≠ "" ∧ ∃ a ∈ articles, a.text = some c) ∧
    (∀ p ∈ buildTopic summarize articles,
      ∃ a ∈ articles, ∃ s, a.text = some s ∧ s ≠ "" ∧
        p.2 = ⟨a.title, summarize s, a.url⟩) := by
  have h := buildFold_sound summarize articles ([], [])
  constructor
  · intro c hc
    rcases h.1 c hc with hin | ⟨a, ha, h1, h2⟩
    · exact absurd hin (List.not_mem_nil c)
    · exact ⟨h2, a, ha, h1⟩
  · intro p hp
    rcases h.2 p hp with hin | ⟨a, ha, s, h1, h2, h3⟩
    · exact absurd hin (List.not_mem_nil p)
    · exact ⟨a, ha, s, h1, h2, by rw [h3]⟩

theorem claim_C4_witness :
    ("x" : String) ≠ "" ∧ ∃ a ∈ onePage, a.text = some "x" :=
  (claim_C4_empty_text_excluded (fun s => s) onePage).1 "x" (by decide)

/-- Claim C5: `write_summ_article` produces exactly the subsection made of an
h3 with the title stripped of every literal `.json` substring, a p with the
summarized text, and an anchor to the url labeled source, with title, text and
url embedded verbatim (no HTML escaping); in particular an article titled
foo.json with url http://x renders h3 foo and an anchor to http://x. -/
theorem claim_C5_subsection_shape (a : SummArticle) (html : String) :
    write_summ_article a html =
      html ++ ("<h3>" ++ pyReplace a.title ".json" "" ++ "</h3>\n<p>" ++
        a.text ++ "</p>\n<a href=\"" ++ a.url ++ "\"> source </a>\n") ∧
    write_summ_article ⟨"foo.json", "hello world", "http://x"⟩ "" =
      "<h3>foo</h3>\n<p>hello world</p>\n<a href=\"http://x\"> source </a>\n" :=
  ⟨rfl, by decide⟩

theorem foldl_append_extract (g : String → String) :
    ∀ (ts : List String) (init : String),
      ∃ rest, ts.foldl (fun h x => h ++ g x) init = init ++ rest := by
  intro ts
  induction ts with
  | nil => intro init; exact ⟨"", (String.append_empty init).symm⟩
  | cons h t ih =>
    intro init
    obtain ⟨rest, hrest⟩ := ih (init ++ g h)
    exact ⟨g h ++ rest, by
      simp only [List.foldl_cons, hrest, String.append_assoc]⟩

theorem foldl_append_split (g : String → String) :
    ∀ (ts : List String) (init : String) (t : String), t ∈ ts →
      ∃ pre post, ts.foldl (fun h x => h ++ g x) init = pre ++ g t ++ post := by
  intro ts
  induction ts with
  | nil => intro _ t ht; exact absurd ht (List.not_mem_nil t)
  | cons h ts ih =>
    intro init t ht
    rcases List.mem_cons.mp ht with rfl | ht'
    · obtain ⟨rest, hrest⟩ := foldl_append_extract g ts (init ++ g t)
      exact ⟨init, rest, by simp only [List.foldl_cons, hrest]⟩
    · obtain ⟨pre, post, hsplit⟩ := ih (init ++ g h) t ht'
      exact ⟨pre, post, by simp only [List.foldl_cons, hsplit]⟩

theorem lookup_map_pair {α : Type} (g : String → α) :
    ∀ (ts : List String) (t : String), t ∈ ts →
      (ts.map (fun x => (x, g x))).lookup t = some (g t) := by
  intro ts
  induction ts with
  | nil => intro t ht; exact absurd ht (List.not_mem_nil t)
  | cons h ts ih =>
    intro t ht
    by_cases he : h = t
    · subst he
      simp [List.lookup]
    · rcases List.mem_cons.mp ht with rfl | ht'
      · exact absurd rfl he
      · have hne : (t == h) = false := beq_eq_false_iff_ne.mpr (Ne.symm he)
        simpa [List.lookup, hne] using ih t ht'

/-- Claim C6: for every topic of the fixed enumeration for which the backend
returns no articles, the digest holds an empty mapping for that topic, and the
HTML of `write_html` still contains that topic's capitalized heading followed
by a horizontal rule with no article subsections (the topic contributes
exactly the heading block); instantiating the quantifier at each topic of an
all-empty run yields all six headings. -/
theorem claim_C6_empty_topic_heading (summarize : String → String)
    (backend : String → Nat → List Article) (fuel : Nat) (date : String)
    (hf : 1 ≤ fuel) :
    ∃ digest html,
      get_summarized_articles summarize backend fuel = some digest ∧
      write_html summarize backend fuel date = some html ∧
      ∀ t ∈ topics, backend t 0 = [] →
        digest.lookup t = some [] ∧
        ∃ pre post,
          html = pre ++ ("<h1>" ++ pyCapitalize t ++ "</h1>\n<hr>\n\n") ++
            post := by
  obtain ⟨n, rfl⟩ : ∃ n, fuel = n + 1 := ⟨fuel - 1, by omega⟩
  have hdig := get_summarized_articles_eval summarize backend n
  refine ⟨topics.map fun t => (t, buildTopic summarize (backend t 0)),
    (topics.foldl (fun h x => h ++ write_section
      ((((topics.map fun y =>
        (y, buildTopic summarize (backend y 0))).lookup x).getD []) ) x)
      (htmlHead date)) ++ "</html>", hdig, ?_, ?_⟩
  · show (get_summarized_articles summarize backend (n + 1)).map _ = _
    rw [hdig]
    rfl
  · intro t ht hempty
    have hlook :
        ((topics.map fun t => (t, buildTopic summarize (backend t 0))).lookup
          t) = some (buildTopic summarize (backend t 0)) :=
      lookup_map_pair (fun t => buildTopic summarize (backend t 0)) topics t ht
    have hnil : buildTopic summarize (backend t 0) = [] := by
      rw [hempty]
      rfl
    refine ⟨by rw [hlook, hnil], ?_⟩
    obtain ⟨pre, post, hsplit⟩ := foldl_append_split
      (fun t => write_section
        ((((topics.map fun x => (x, buildTopic summarize (backend x 0))).lookup
          t).getD []) ) t)
      topics (htmlHead date) t ht
    refine ⟨pre, post ++ "</html>", ?_⟩
    have hsec :
        write_section
          ((((topics.map fun x =>
            (x, buildTopic summarize (backend x 0))).lookup t).getD []) ) t =
          "<h1>" ++ pyCapitalize t ++ "</h1>\n<hr>\n\n" := by
      rw [hlook]
      show write_section (buildTopic summarize (backend t 0)) t = _
      rw [hnil]
      show ("<h1>" ++ pyCapitalize t ++ "</h1>\n<hr>\n") ++ "\n" = _
      rw [String.append_assoc, String.append_assoc, String.append_assoc]
      rfl
    rw [hsec] at hsplit
    show (topics.foldl _ (htmlHead date)) ++ "</html>" = _
    rw [hsplit, String.append_assoc, String.append_assoc]

theorem claim_C6_witness :
    ∃ digest html,
      get_summarized_articles (fun s => s) (fun _ _ => []) 1 = some digest ∧
      write_html (fun s => s) (fun _ _ => []) 1 "2023-09-01" = some html ∧
      ∀ t ∈ topics, (fun _ _ => ([] : List Article)) t 0 = [] →
        digest.lookup t = some [] ∧
        ∃ pre post,
          html = pre ++ ("<h1>" ++ pyCapitalize t ++ "</h1>\n<hr>\n\n") ++
            post :=
  claim_C6_empty_topic_heading (fun s => s) (fun _ _ => []) 1 "2023-09-01"
    (by decide)

theorem updateIndex_idem (date : String) (l : List String) :
    updateIndex date (updateIndex date l) = updateIndex date l := by
  unfold updateIndex
  by_cases h : date ∈ l
  · simp [h]
  · simp [h, List.mem_cons]

theorem updateIndex_count_le (date : String) (l : List String) :
    (updateIndex date l).count date ≤ max 1 (l.count date) := by
  unfold updateIndex
  by_cases h : date ∈ l
  · simp only [if_pos h]
    exact le_max_right _ _
  · simp only [if_neg h, List.count_cons_self]
    have : l.count date = 0 := by
      simpa using List.count_eq_zero.mpr h
    omega

/-- Claim C7: the index-update step reads the array at `articles.json`,
inserts the run date at position 0 exactly when absent, and writes the result
back; the update is idempotent, applying it twice leaves exactly one
occurrence of the date when the array held at most one, and it never
introduces a duplicate of the date. -/
theorem claim_C7_index_idempotent (date : String) (l : List String)
    (s3 : S3Model)
    (hstore : s3.store.lookup "articles.json" = some (.jsonArr l))
    (hget : "articles.json" ∉ s3.getFailKeys)
    (hput : "articles.json" ∉ s3.putFailKeys) :
    indexPhase s3 date = .ok { s3 with
      store := storePut s3.store "articles.json"
        (.jsonArr (updateIndex date l)) } ∧
    updateIndex date (updateIndex date l) = updateIndex date l ∧
    (l.count date ≤ 1 →
      (updateIndex date (updateIndex date l)).count date = 1) ∧
    (∀ l2 : List String,
      (updateIndex date l2).count date ≤ max 1 (l2.count date)) := by
  refine ⟨?_, updateIndex_idem date l, ?_, fun l2 => updateIndex_count_le date l2⟩
  · unfold indexPhase s3get s3put
    simp only [hstore, if_neg hget, if_neg hput]
    rfl
  · intro hcount
    rw [updateIndex_idem]
    unfold updateIndex
    by_cases h : date ∈ l
    · have h1 : 1 ≤ l.count date := List.one_le_count_iff.mpr h
      simp only [if_pos h]
      omega
    · have h0 : l.count date = 0 := by
        simpa using List.count_eq_zero.mpr h
      simp [if_neg h, List.count_cons_self, h0]

theorem claim_C7_witness :
    indexPhase ⟨[("articles.json", .jsonArr ["2023-08-31"])], [], []⟩
        "2023-09-01" = .ok
      ⟨storePut [("articles.json", .jsonArr ["2023-08-31"])] "articles.json"
        (.jsonArr (updateIndex "2023-09-01" ["2023-08-31"])), [], []⟩ ∧
    updateIndex "2023-09-01" (updateIndex "2023-09-01" ["2023-08-31"]) =
      updateIndex "2023-09-01" ["2023-08-31"] ∧
    ((["2023-08-31"] : List String).count "2023-09-01" ≤ 1 →
      (updateIndex "2023-09-01"
        (updateIndex "2023-09-01" ["2023-08-31"])).count "2023-09-01" = 1) ∧
    (∀ l2 : List String,
      (updateIndex "2023-09-01" l2).count "2023-09-01" ≤
        max 1 (l2.count "2023-09-01")) :=
  claim_C7_index_idempotent "2023-09-01" ["2023-08-31"]
    ⟨[("articles.json", .jsonArr ["2023-08-31"])], [], []⟩
    (by decide) (by decide) (by decide)

/-- Claim C8: with the bucket key present, a failure of the HTML upload step
(a failure while building the HTML inside the put call, or of the put itself)
is caught and the run continues to the index-update step on the unchanged
store, so the invocation does not fail from it; a failure of the index
read/parse/write step propagates out as the invocation's error, leaving any
already-uploaded HTML committed in the final store. -/
theorem claim_C8_error_domains (event : List (String × String)) (s3 : S3Model)
    (htmlRes : Except Err String) (date b : String)
    (hb : event.lookup "S3_BUCKET_NAME" = some b) :
    (∀ e : Err,
      htmlRes.bind (fun html =>
        s3put s3 ("articles/" ++ date ++ ".html") (.page html)) = .error e →
      lambda_handler event s3 htmlRes date =
        (match indexPhase s3 date with
         | .ok s3' => (s3', none)
         | .error e' => (s3, some e'))) ∧
    (∀ e : Err, indexPhase (publishPhase s3 htmlRes date) date = .error e →
      lambda_handler event s3 htmlRes date =
        (publishPhase s3 htmlRes date, some e)) ∧
    (∀ html, htmlRes = .ok html →
      ("articles/" ++ date ++ ".html") ∉ s3.putFailKeys →
      (publishPhase s3 htmlRes date).store.lookup
        ("articles/" ++ date ++ ".html") = some (.page html)) := by
  have hhandler : lambda_handler event s3 htmlRes date =
      (match indexPhase (publishPhase s3 htmlRes date) date with
       | .ok s3b => (s3b, none)
       | .error e => (publishPhase s3 htmlRes date, some e)) := by
    unfold lambda_handler getEvent
    rw [hb]
  refine ⟨?_, ?_, ?_⟩
  · intro e he
    have hpub : publishPhase s3 htmlRes date = s3 := by
      unfold publishPhase
      rw [he]
    rw [hhandler, hpub]
  · intro e he
    rw [hhandler, he]
  · intro html hh hput
    subst hh
    have hpub : publishPhase s3 (.ok html) date =
        ⟨storePut s3.store ("articles/" ++ date ++ ".html") (.page html),
          s3.putFailKeys, s3.getFailKeys⟩ := by
      unfold publishPhase s3put
      simp only [Except.bind, if_neg hput]
    rw [hpub]
    simp [storePut, List.lookup]

theorem claim_C8_witness :
    lambda_handler [("S3_BUCKET_NAME", "b")]
        ⟨[("articles.json", .jsonArr [])], ["articles/2023-09-01.html"], []⟩
        (.ok "h") "2023-09-01" =
      (match indexPhase
          ⟨[("articles.json", .jsonArr [])], ["articles/2023-09-01.html"], []⟩
          "2023-09-01" with
       | .ok s3' => (s3', none)
       | .error e' =>
         (⟨[("articles.json", .jsonArr [])], ["articles/2023-09-01.html"], []⟩,
           some e')) :=
  (claim_C8_error_domains [("S3_BUCKET_NAME", "b")]
    ⟨[("articles.json", .jsonArr [])], ["articles/2023-09-01.html"], []⟩
    (.ok "h") "2023-09-01" "b" (by decide)).1
    (.s3Error "articles/2023-09-01.html") (by rfl)

theorem configFold_eq (event : List (String × String)) :
    ∀ (ks : List String) (acc : List (String × String) × List String),
      ks.foldl (configStep event) acc =
      (acc.1 ++ ks.filterMap (fun k => (event.lookup k).map (fun v => (k, v))),
       acc.2 ++ ks.filterMap (fun k =>
         if event.lookup k = none then some (missingWarning k) else none)) := by
  intro ks
  induction ks with
  | nil => intro acc; simp
  | cons k ks ih =>
    intro acc
    rw [List.foldl_cons]
    rcases h : event.lookup k with _ | v
    · have hstep : configStep event acc k =
          (acc.1, acc.2 ++ [missingWarning k]) := by
        unfold configStep getEvent
        rw [h]
      rw [hstep, ih]
      simp [List.filterMap_cons, h]
    · have hstep : configStep event acc k = (acc.1 ++ [(k, v)], acc.2) := by
        unfold configStep getEvent
        rw [h]
      rw [hstep, ih]
      simp [List.filterMap_cons, h]

/-- Claim C9 (counterexample): an event carrying all three keys of
`configVars` but no `S3_BUCKET_NAME` makes `lambda_handler` fail with an
uncaught `KeyError` during the configuration-reading stage, before any
publish step -- so a missing required configuration key is not always
non-fatal, refuting the claim as stated. -/
theorem claim_C9_counterexample :
    lambda_handler
        [("WEAVIATE_URL", "u"), ("WEAVIATE_API_KEY", "k"),
          ("OPENAI_API_KEY", "o")]
        ⟨[("articles.json", .jsonArr [])], [], []⟩ (.ok "h") "2023-09-01" =
      (⟨[("articles.json", .jsonArr [])], [], []⟩,
        some (.keyError "S3_BUCKET_NAME")) := by
  rfl

/-- Claim C9 (amended): for each of the keys in `configVars`
(`WEAVIATE_URL`, `WEAVIATE_API_KEY`, `OPENAI_API_KEY`) the parsing loop never
fails -- it returns the present keys as config entries and one warning per
missing key, a missing key leaving the entry simply absent -- whereas the
bucket name `S3_BUCKET_NAME` is read outside the guarded loop, and its
absence aborts the invocation with an uncaught `KeyError`. -/
theorem claim_C9_missing_keys (event : List (String × String)) :
    configStage event =
      (configVars.filterMap (fun k => (event.lookup k).map (fun v => (k, v))),
       configVars.filterMap (fun k =>
         if event.lookup k = none then some (missingWarning k) else none)) ∧
    (∀ k ∈ configVars, event.lookup k = none →
      (∀ v, (k, v) ∉ (configStage event).1) ∧
      missingWarning k ∈ (configStage event).2) ∧
    (event.lookup "S3_BUCKET_NAME" = none →
      ∀ s3 htmlRes date,
        lambda_handler event s3 htmlRes date =
          (s3, some (.keyError "S3_BUCKET_NAME"))) := by
  have hmain : configStage event =
      (configVars.filterMap (fun k => (event.lookup k).map (fun v => (k, v))),
       configVars.filterMap (fun k =>
         if event.lookup k = none then some (missingWarning k) else none)) := by
    show configVars.foldl (configStep event) ([], []) = _
    rw [configFold_eq event configVars ([], [])]
    rfl
  refine ⟨hmain, ?_, ?_⟩
  · intro k hk hnone
    rw [hmain]
    constructor
    · intro v hv
      obtain ⟨k', _hk', hmap⟩ := List.mem_filterMap.mp hv
      rcases hl : event.lookup k' with _ | v'
      · rw [hl] at hmap
        exact absurd hmap (by simp)
      · rw [hl] at hmap
        simp only [Option.map_some', Option.some_inj, Prod.mk.injEq] at hmap
        rw [hmap.1] at hl
        rw [hl] at hnone
        exact absurd hnone (by simp)
    · exact List.mem_filterMap.mpr ⟨k, hk, by rw [hnone]; simp⟩
  · intro h s3 htmlRes date
    unfold lambda_handler getEvent
    rw [h]

theorem claim_C9_witness :
    (∀ v, ("OPENAI_API_KEY", v) ∉ (configStage [("WEAVIATE_URL", "u")]).1) ∧
    missingWarning "OPENAI_API_KEY" ∈ (configStage [("WEAVIATE_URL", "u")]).2 :=
  (claim_C9_missing_keys [("WEAVIATE_URL", "u")]).2.1 "OPENAI_API_KEY"
    (by decide) (by rfl)
